import Mathlib

/-!
Verification of the disco-bot-manager core: a shallow embedding of the
state model (state.rs), the supervisor/worker lifecycle (bot.rs), and the
configuration round trip (config.rs), together with theorems settling the
specification claims.

Modelling conventions:
* Rust HashMap is modelled as an association list (List (key × value));
  lookup/update/insert mirror get, get_mut-with-closure, and insert.
* The tokio mpsc Sender stored in command_tx is modelled by the generation
  number of the channel it belongs to (a fresh Nat per spawn); None models
  the absent handle.
* f32 volumes are modelled as Rat (no claim depends on float rounding).
* Timestamps are an explicit String parameter of the log operation.
-/

set_option maxRecDepth 4000

/-- Association-list lookup, modelling HashMap::get. -/
def alookup {κ β : Type} [DecidableEq κ] (m : List (κ × β)) (k : κ) : Option β :=
  match m with
  | [] => none
  | (k', v) :: rest => if k' = k then some v else alookup rest k

/-- Association-list in-place update, modelling HashMap::get_mut followed by a
mutation closure: a no-op when the key is absent. -/
def aupdate {κ β : Type} [DecidableEq κ] (m : List (κ × β)) (k : κ) (f : β → β) :
    List (κ × β) :=
  match m with
  | [] => []
  | p :: rest => if p.1 = k then (p.1, f p.2) :: rest else p :: aupdate rest k f

/-- Association-list insert, modelling HashMap::insert (replace or append). -/
def ainsert {κ β : Type} [DecidableEq κ] (m : List (κ × β)) (k : κ) (v : β) :
    List (κ × β) :=
  if (alookup m k).isSome then aupdate m k (fun _ => v) else m ++ [(k, v)]

/-- BotStatus from state.rs. -/
inductive BotStatus : Type
  | Offline
  | Starting
  | Online
  | Error (msg : String)
deriving DecidableEq

/-- NameId from state.rs. -/
structure NameId : Type where
  id : Nat
  name : String
deriving DecidableEq

/-- TrackMetadata from state.rs. -/
structure TrackMetadata : Type where
  uuid : String
  title : String
  artist : Option String
  url : String
  duration_secs : Option Nat
  thumbnail_url : Option String
  added_by : String
deriving DecidableEq

/-- GuildState from state.rs. -/
structure GuildState : Type where
  guild_id : Nat
  guild_name : String
  channel_id : Option Nat
  is_playing : Bool
  is_paused : Bool
  volume : Rat
  position_secs : Nat
  now_playing : Option TrackMetadata
  queue : List TrackMetadata
  voice_channels : List NameId
deriving DecidableEq

/-- GuildState::new from state.rs. -/
def GuildState.new (id : Nat) (name : String) : GuildState :=
  { guild_id := id
    guild_name := name
    channel_id := none
    is_playing := false
    is_paused := false
    volume := 1
    position_secs := 0
    now_playing := none
    queue := []
    voice_channels := [] }

/-- AccountState from state.rs.  The command_tx Sender is modelled by the
generation number of the channel it belongs to. -/
structure AccountState : Type where
  uuid : String
  account_alias : String
  token : String
  application_id : Option Nat
  auto_start : Bool
  status : BotStatus
  guilds : List (Nat × GuildState)
  command_tx : Option Nat
deriving DecidableEq

/-- AccountState::new from state.rs. -/
def AccountState.new (uuid account_alias token : String) : AccountState :=
  { uuid := uuid
    account_alias := account_alias
    token := token
    application_id := none
    auto_start := true
    status := BotStatus.Offline
    guilds := []
    command_tx := none }

/-- UiContext from state.rs. -/
structure UiContext : Type where
  selected_account_uuid : Option String
  selected_guild_id : Option Nat
deriving DecidableEq

/-- AppState from state.rs. -/
structure AppState : Type where
  accounts : List (String × AccountState)
  ui_context : UiContext
  system_logs : List String
deriving DecidableEq

/-- The timestamped line built by AppState::log. -/
def logEntry (timestamp msg : String) : String :=
  "[" ++ timestamp ++ "] " ++ msg

/-- The system-log effect of AppState::log from state.rs: push the
timestamped line, then remove the oldest entry when the length exceeds
1000 (Vec::remove(0) is List.drop 1). -/
def logPush (logs : List String) (timestamp msg : String) : List String :=
  let l := logs ++ [logEntry timestamp msg]
  if 1000 < l.length then l.drop 1 else l

/-- A sequence of AppState::log calls starting from the empty log; each
element carries its timestamp and message. -/
def logRun (msgs : List (String × String)) : List String :=
  msgs.foldl (fun acc p => logPush acc p.1 p.2) []

/-- AppState::log from state.rs, lifted to the full state. -/
def AppState.log (s : AppState) (timestamp msg : String) : AppState :=
  { s with system_logs := logPush s.system_logs timestamp msg }

/-- Songbird PlayMode (the cases bot.rs inspects). -/
inductive PlayMode : Type
  | Play
  | Pause
  | Stop
  | End
  | Errored (e : String)
deriving DecidableEq

/-- A track as held by the songbird engine: its engine-assigned handle uuid
(a Nat here) and the per-track info get_info reports. -/
structure EngineTrack : Type where
  uuid : Nat
  playing : PlayMode
  position : Nat
  volume : Rat
deriving DecidableEq

/-- The engine-side call for one guild: TrackQueue::current_queue(), whose
head is TrackQueue::current(). -/
structure EngineCall : Type where
  queue : List EngineTrack
deriving DecidableEq

/-- BotInstance::move_track from bot.rs: indices are 0-based over the
visible queue (excluding the currently playing track at engine index 0);
VecDeque::remove then VecDeque::insert.  The source computes from + 1 and
to + 1 on usize, so the addition wraps at usize::MAX: modelled as the
64-bit wrapping add (i + 1) % 2 ^ 64, the release-build behavior (a debug
build would panic on the overflow instead). -/
def move_track {α : Type} (deque : List α) (from_index to_index : Nat) : List α :=
  if deque.length ≤ 1 then deque
  else
    let real_from := (from_index + 1) % 2 ^ 64
    let real_to := (to_index + 1) % 2 ^ 64
    if real_from < deque.length ∧ real_to < deque.length then
      match deque.get? real_from with
      | some item => (deque.eraseIdx real_from).insertIdx real_to item
      | none => deque
    else deque

/-- The Volume arm of BotInstance::handle_command from bot.rs: set_volume on
every track of the engine queue (current + pending) via modify_queue, and
update_guild setting only the volume field.  A missing engine call (not
joined) means the control closure never runs. -/
def handle_volume (engine : Option EngineCall) (guilds : List (Nat × GuildState))
    (guild_id : Nat) (volume : Rat) : Option EngineCall × List (Nat × GuildState) :=
  (engine.map (fun call => { queue := call.queue.map (fun t => { t with volume := volume }) }),
   aupdate guilds guild_id (fun g => { g with volume := volume }))

/-- The guild-roster merge performed on the Starting → Online transition in
BotInstance::run: for each roster entry, guilds.entry(id).or_insert_with
(GuildState::new). -/
def merge_guild_roster (guilds : List (Nat × GuildState)) (roster : List (Nat × String)) :
    List (Nat × GuildState) :=
  roster.foldl
    (fun m r => if (alookup m r.1).isSome then m else m ++ [(r.1, GuildState.new r.1 r.2)])
    guilds

/-- One guild's contribution to the observed-handle set of a sync_state pass:
nothing when the guild has no engine call, otherwise the current track's
uuid (TrackQueue::current, the snapshot head) plus every uuid of the full
queue snapshot, inserted into the accumulated set. -/
def observed_uuids (engine : Nat → Option EngineCall) (g : Nat) (acc : List Nat) :
    List Nat :=
  match engine g with
  | none => acc
  | some call =>
      (match call.queue.head? with
       | some t => acc ++ [t.uuid]
       | none => acc) ++ call.queue.map EngineTrack.uuid

/-- The set of engine track handles observed by one sync_state pass over every
guild known to the account. -/
def active_uuids (known : List Nat) (engine : Nat → Option EngineCall) : List Nat :=
  known.foldl (fun acc g => observed_uuids engine g acc) []

/-- The track_lookup pruning of BotInstance::sync_state: the pass early-returns
(no pruning) when songbird is absent or the account is gone; otherwise it
retains exactly the entries whose handle was observed in this pass. -/
def sync_prune (songbirdPresent : Bool) (accountGuilds : Option (List Nat))
    (engine : Nat → Option EngineCall) (track_lookup : List (Nat × TrackMetadata)) :
    List (Nat × TrackMetadata) :=
  if songbirdPresent = false then track_lookup
  else
    match accountGuilds with
    | none => track_lookup
    | some known => track_lookup.filter (fun p => decide (p.1 ∈ active_uuids known engine))

/-- The per-guild write of BotInstance::sync_state: flags, position, volume and
now_playing derived from the current track's get_info (infoOk models the Ok
case), the visible queue rebuilt from the snapshot minus index 0, and the
channel id taken from the call. -/
def sync_guild_update (g : GuildState) (call : EngineCall)
    (track_lookup : List (Nat × TrackMetadata)) (infoOk : Bool)
    (channel : Option Nat) : GuildState :=
  let info : Option EngineTrack :=
    match call.queue.head? with
    | some t => if infoOk then some t else none
    | none => none
  { g with
    is_playing := match info with | some t => decide (t.playing = PlayMode.Play) | none => false
    is_paused := match info with | some t => decide (t.playing = PlayMode.Pause) | none => false
    position_secs := match info with | some t => t.position | none => 0
    volume := match info with | some t => t.volume | none => 1
    now_playing := match info with | some t => alookup track_lookup t.uuid | none => none
    queue := (call.queue.drop 1).filterMap (fun t => alookup track_lookup t.uuid)
    channel_id := channel }

/-- One step on a single guild record: exactly the writers found in the
source.  sync is the reconciliation pass; observer_end is the TrackObserver
End branch; set_volume is the Volume command's update_guild; leave_clear is
the Leave command's update_guild; fetch is FetchChannels' update_guild. -/
inductive GuildStep : GuildState → GuildState → Prop
  | sync (g : GuildState) (call : EngineCall) (tl : List (Nat × TrackMetadata))
      (infoOk : Bool) (channel : Option Nat) :
      GuildStep g (sync_guild_update g call tl infoOk channel)
  | observer_end (g : GuildState) :
      GuildStep g { g with now_playing := none, is_playing := false }
  | set_volume (g : GuildState) (v : Rat) :
      GuildStep g { g with volume := v }
  | leave_clear (g : GuildState) :
      GuildStep g { g with channel_id := none }
  | fetch (g : GuildState) (vc : List NameId) :
      GuildStep g { g with voice_channels := vc }

/-- The TrackObserver::act fold over the reported track states: End clears
now_playing and is_playing on the guild; Errored collects the error text. -/
def observer_track_fold (g : GuildState) (states : List PlayMode) :
    GuildState × List String :=
  states.foldl
    (fun acc m =>
      match m with
      | PlayMode.Errored e => (acc.1, acc.2 ++ [e])
      | PlayMode.End => ({ acc.1 with now_playing := none, is_playing := false }, acc.2)
      | _ => acc)
    (g, [])

/-- The log line the observer error path pushes directly onto system_logs
(no timestamp is prepended, unlike AppState::log). -/
def errLogEntry (uuid : String) (guild_id : Nat) (e : String) : String :=
  "[" ++ uuid ++ "] Playback Error in guild " ++ toString guild_id ++ ": " ++ e

/-- TrackObserver::act from bot.rs: mutate the guild for End events and push
each collected error directly onto system_logs, bypassing AppState::log. -/
def observer_act (uuid : String) (guild_id : Nat) (states : List PlayMode)
    (app : AppState) : AppState :=
  match alookup app.accounts uuid with
  | none => app
  | some acc =>
    match alookup acc.guilds guild_id with
    | none => app
    | some g =>
      let res := observer_track_fold g states
      { app with
        accounts := aupdate app.accounts uuid
          (fun a => { a with guilds := aupdate a.guilds guild_id (fun _ => res.1) }),
        system_logs := app.system_logs ++ res.2.map (fun e => errLogEntry uuid guild_id e) }

/-- The lifecycle phase of one spawned worker task. -/
inductive WorkerPhase : Type
  | connecting
  | looping
  | dead
deriving DecidableEq

/-- One spawned worker task: its account uuid, the generation of the command
channel it was created with, and its phase. -/
structure Worker : Type where
  uuid : String
  gen : Nat
  phase : WorkerPhase
deriving DecidableEq

/-- The supervisor-level system state: the shared account map, the set of
worker tasks ever spawned (a ghost history of tasks), and a counter
supplying fresh channel generations. -/
structure MgrState : Type where
  accounts : List (String × AccountState)
  workers : List Worker
  nextGen : Nat

/-- BotManager::spawn_bot from bot.rs: under the first lock, no-op when the
account is unknown or its status is Online or Starting, else set Starting;
then create the channel, install the sender under the second lock, and
spawn the worker task. -/
def spawn_bot (s : MgrState) (u : String) : MgrState :=
  match alookup s.accounts u with
  | none => s
  | some acc =>
    if acc.status = BotStatus.Online ∨ acc.status = BotStatus.Starting then s
    else
      let g := s.nextGen
      { accounts :=
          aupdate (aupdate s.accounts u (fun a => { a with status := BotStatus.Starting }))
            u (fun a => { a with command_tx := some g })
        workers := s.workers ++ [{ uuid := u, gen := g, phase := WorkerPhase.connecting }]
        nextGen := g + 1 }

/-- BotManager::kill_bot from bot.rs: clear the command channel handle and set
the status to Offline; unknown accounts are ignored. -/
def kill_bot (s : MgrState) (u : String) : MgrState :=
  { s with
    accounts := aupdate s.accounts u
      (fun a => { a with command_tx := none, status := BotStatus.Offline }) }

/-- Move the worker of the given uuid and generation to the given phase. -/
def set_worker_phase (ws : List Worker) (u : String) (g : Nat) (p : WorkerPhase) :
    List Worker :=
  ws.map (fun w => if w.uuid = u ∧ w.gen = g then { w with phase := p } else w)

/-- The successful half of BotInstance::run: optionally record the fetched
application id, then (when the roster fetch succeeds) set status Online and
merge the roster into the guild map, and enter the command loop. -/
def worker_connect_ok (s : MgrState) (u : String) (g : Nat) (appId : Option Nat)
    (roster : Option (List (Nat × String))) : MgrState :=
  let accounts1 :=
    match appId with
    | some i => aupdate s.accounts u (fun a => { a with application_id := some i })
    | none => s.accounts
  let accounts2 :=
    match roster with
    | some r =>
        aupdate accounts1 u
          (fun a => { a with status := BotStatus.Online, guilds := merge_guild_roster a.guilds r })
    | none => accounts1
  { s with accounts := accounts2, workers := set_worker_phase s.workers u g WorkerPhase.looping }

/-- The failing half of BotInstance::run: record Error(reason) and end the
worker task.  The command channel handle is not touched. -/
def worker_connect_fail (s : MgrState) (u : String) (g : Nat) (msg : String) : MgrState :=
  { s with
    accounts := aupdate s.accounts u (fun a => { a with status := BotStatus.Error msg })
    workers := set_worker_phase s.workers u g WorkerPhase.dead }

/-- The command-loop exit of BotInstance::command_loop: once the worker's
channel is closed (its sender is no longer the installed handle), the loop
breaks and status is set Offline as the final act. -/
def worker_loop_exit (s : MgrState) (u : String) (g : Nat) : MgrState :=
  { s with
    accounts := aupdate s.accounts u (fun a => { a with status := BotStatus.Offline })
    workers := set_worker_phase s.workers u g WorkerPhase.dead }

/-- The lifecycle transition relation: the supervisor's two operations plus
the three worker-side transitions, each guarded by the existence of the
worker in the corresponding phase; loop exit additionally requires the
worker's channel to be closed (its sender dropped: the installed handle is
no longer this worker's generation). -/
inductive ManagerStep : MgrState → MgrState → Prop
  | start_bot (s : MgrState) (u : String) : ManagerStep s (spawn_bot s u)
  | stop_bot (s : MgrState) (u : String) : ManagerStep s (kill_bot s u)
  | connect_ok (s : MgrState) (u : String) (g : Nat) (appId : Option Nat)
      (roster : Option (List (Nat × String)))
      (hw : ({ uuid := u, gen := g, phase := WorkerPhase.connecting } : Worker) ∈ s.workers) :
      ManagerStep s (worker_connect_ok s u g appId roster)
  | connect_fail (s : MgrState) (u : String) (g : Nat) (msg : String)
      (hw : ({ uuid := u, gen := g, phase := WorkerPhase.connecting } : Worker) ∈ s.workers) :
      ManagerStep s (worker_connect_fail s u g msg)
  | loop_exit (s : MgrState) (u : String) (g : Nat)
      (hw : ({ uuid := u, gen := g, phase := WorkerPhase.looping } : Worker) ∈ s.workers)
      (hch : (alookup s.accounts u).bind AccountState.command_tx ≠ some g) :
      ManagerStep s (worker_loop_exit s u g)

/-- Reachability under lifecycle transitions. -/
def MgrReachable (s₀ s : MgrState) : Prop :=
  Relation.ReflTransGen ManagerStep s₀ s

/-- A valid initial state: no worker has ever been spawned and no account
holds a command channel handle (as built by ConfigManager::init_state). -/
def MgrInit (s : MgrState) : Prop :=
  s.workers = [] ∧ ∀ u a, alookup s.accounts u = some a → a.command_tx = none

/-- SavedAccount from config.rs. -/
structure SavedAccount : Type where
  uuid : String
  account_alias : String
  token : String
  auto_start : Bool
deriving DecidableEq

/-- AppConfig from config.rs. -/
structure AppConfig : Type where
  accounts : List SavedAccount
  last_selected_account : Option String
deriving DecidableEq

/-- The AccountState literal built by ConfigManager::init_state for one saved
account. -/
def savedToAccount (saved : SavedAccount) : AccountState :=
  { uuid := saved.uuid
    account_alias := saved.account_alias
    token := saved.token
    application_id := none
    auto_start := saved.auto_start
    status := BotStatus.Offline
    guilds := []
    command_tx := none }

/-- ConfigManager::init_state from config.rs. -/
def init_state (config : AppConfig) : AppState :=
  { accounts :=
      config.accounts.foldl (fun m saved => ainsert m saved.uuid (savedToAccount saved)) []
    ui_context :=
      { selected_account_uuid := config.last_selected_account, selected_guild_id := none }
    system_logs := [] }

/-- The SavedAccount projection used by ConfigManager::update_from_state. -/
def accountToSaved (acc : AccountState) : SavedAccount :=
  { uuid := acc.uuid
    account_alias := acc.account_alias
    token := acc.token
    auto_start := acc.auto_start }

/-- The alias order used by the sort in ConfigManager::update_from_state. -/
def aliasLe (a b : SavedAccount) : Prop :=
  a.account_alias ≤ b.account_alias

instance : DecidableRel aliasLe := fun a b => by
  unfold aliasLe; infer_instance

instance : IsTotal SavedAccount aliasLe :=
  ⟨fun a b => le_total a.account_alias b.account_alias⟩

instance : IsTrans SavedAccount aliasLe :=
  ⟨fun _ _ _ h1 h2 => le_trans h1 h2⟩

/-- ConfigManager::update_from_state from config.rs: project every account to
its SavedAccount and sort by alias. -/
def update_from_state (state : AppState) : AppConfig :=
  { accounts := (state.accounts.map (fun p => accountToSaved p.2)).insertionSort aliasLe
    last_selected_account := state.ui_context.selected_account_uuid }

/-- Channel-generation bookkeeping invariant: every spawned worker's channel
generation is below the fresh counter, and no two workers (live or dead)
share a generation. -/
def WorkerGensOk (s : MgrState) : Prop :=
  (∀ w ∈ s.workers, w.gen < s.nextGen) ∧ (s.workers.map Worker.gen).Nodup

/-- A concrete initial supervisor state with one offline account. -/
def mgrDemoInit : MgrState :=
  { accounts := [("a", AccountState.new "a" "Alias" "tok")]
    workers := []
    nextGen := 0 }

/-- A concrete supervisor state whose single account is already Online. -/
def mgrDemoOnline : MgrState :=
  { accounts := [("a", { AccountState.new "a" "Alias" "tok" with
                          status := BotStatus.Online, command_tx := some 7 })]
    workers := [{ uuid := "a", gen := 7, phase := WorkerPhase.looping }]
    nextGen := 8 }

/-- A concrete app state whose system log already holds 1000 entries. -/
def appDemoFullLog : AppState :=
  { accounts := [("a", { AccountState.new "a" "Alias" "tok" with
                          guilds := [(5, GuildState.new 5 "Guild")] })]
    ui_context := { selected_account_uuid := none, selected_guild_id := none }
    system_logs := List.replicate 1000 "line" }

/-- A concrete two-account configuration with aliases out of order. -/
def demoConfig : AppConfig :=
  { accounts :=
      [{ uuid := "u2", account_alias := "Beta", token := "t2", auto_start := false },
       { uuid := "u1", account_alias := "Alpha", token := "t1", auto_start := true }]
    last_selected_account := some "u1" }

/-! ## Helper lemmas about association lists -/

theorem alookup_aupdate_self {κ β : Type} [DecidableEq κ] (m : List (κ × β)) (k : κ)
    (f : β → β) : alookup (aupdate m k f) k = (alookup m k).map f := by
  induction m with
  | nil => rfl
  | cons p rest ih =>
    by_cases h : p.1 = k
    · simp [alookup, aupdate, h]
    · simp [alookup, aupdate, h, ih]

theorem alookup_aupdate_ne {κ β : Type} [DecidableEq κ] (m : List (κ × β)) (k k' : κ)
    (f : β → β) (h : k' ≠ k) : alookup (aupdate m k f) k' = alookup m k' := by
  induction m with
  | nil => rfl
  | cons p rest ih =>
    by_cases h0 : p.1 = k
    · have h1 : p.1 ≠ k' := fun hk => h (hk ▸ h0)
      simp [alookup, aupdate, h0, h1, Ne.symm h]
    · by_cases h1 : p.1 = k'
      · simp [alookup, aupdate, h0, h1, h]
      · simp [alookup, aupdate, h0, h1, ih]

theorem alookup_append {κ β : Type} [DecidableEq κ] (m₁ m₂ : List (κ × β)) (k : κ) :
    alookup (m₁ ++ m₂) k = (alookup m₁ k).or (alookup m₂ k) := by
  induction m₁ with
  | nil => simp [alookup]
  | cons p rest ih =>
    obtain ⟨k', v⟩ := p
    by_cases h : k' = k
    · simp [alookup, h]
    · simp only [List.cons_append, alookup, if_neg h]
      exact ih

/-! ## C5: MoveTrack index translation and bounds checks -/

theorem move_track_def {α : Type} (q : List α) (f t : Nat) :
    move_track q f t =
      if q.length ≤ 1 then q
      else if (f + 1) % 2 ^ 64 < q.length ∧ (t + 1) % 2 ^ 64 < q.length then
        match q.get? ((f + 1) % 2 ^ 64) with
        | some item => (q.eraseIdx ((f + 1) % 2 ^ 64)).insertIdx ((t + 1) % 2 ^ 64) item
        | none => q
      else q := rfl

/-- C5 counterexample: the claim's universal silent-ignore clause fails at the
usize boundary: with from = usize::MAX the translation from + 1 wraps to
engine index 0, the bounds check passes, and the out-of-range request moves
the now-playing entry instead of being ignored. -/
theorem move_track_overflow_not_ignored :
    move_track [(10 : Nat), 20, 30] (2 ^ 64 - 1) 0 = [20, 10, 30] ∧
    move_track [(10 : Nat), 20, 30] (2 ^ 64 - 1) 0 ≠ [10, 20, 30] := by
  decide

/-- C5 (amended): MoveTrack interprets its indices as zero-based visible-queue
positions and translates both by +1 in usize arithmetic; whenever the two
translations do not overflow (from + 1 and to + 1 below 2^64), the move
happens only when both translated indices are below the engine queue length,
out-of-range requests (including to at or beyond the visible length) and
queues of length at most one are silently ignored, and on a 3-entry visible
queue (engine length 4) MoveTrack(0,1) swaps engine positions 1 and 2,
leaving position 0 untouched; at from or to = usize::MAX the translation
wraps to engine index 0 and the request is not ignored. -/
theorem move_track_correct :
    (∀ (α : Type) (q : List α) (f t : Nat), q.length ≤ 1 → move_track q f t = q) ∧
    (∀ (α : Type) (q : List α) (f t : Nat), f + 1 < 2 ^ 64 → t + 1 < 2 ^ 64 →
      q.length ≤ t + 1 ∨ q.length ≤ f + 1 → move_track q f t = q) ∧
    (∀ (α : Type) (q : List α) (f t : Nat), f + 1 < 2 ^ 64 → t + 1 < 2 ^ 64 →
      f + 1 < q.length → t + 1 < q.length →
      ∃ item, q.get? (f + 1) = some item ∧
        move_track q f t = (q.eraseIdx (f + 1)).insertIdx (t + 1) item) ∧
    (∀ (α : Type) (a b c d : α), move_track [a, b, c, d] 0 1 = [a, c, b, d]) := by
  refine ⟨?_, ?_, ?_, ?_⟩
  · intro α q f t h
    rw [move_track_def, if_pos h]
  · intro α q f t hf2 ht2 h
    by_cases h1 : q.length ≤ 1
    · rw [move_track_def, if_pos h1]
    · rw [move_track_def, if_neg h1, Nat.mod_eq_of_lt hf2, Nat.mod_eq_of_lt ht2,
        if_neg (by omega)]
  · intro α q f t hf2 ht2 hf ht
    have h1 : ¬q.length ≤ 1 := by omega
    have hget : q.get? (f + 1) = some (q.get ⟨f + 1, hf⟩) := List.get?_eq_get hf
    refine ⟨q.get ⟨f + 1, hf⟩, hget, ?_⟩
    rw [move_track_def, if_neg h1, Nat.mod_eq_of_lt hf2, Nat.mod_eq_of_lt ht2,
      if_pos (And.intro hf ht), hget]
  · intro α a b c d
    rfl

theorem move_track_correct_witness :
    move_track [10, 20, 30, 40] 0 1 = [10, 30, 20, 40] ∧
    move_track [(5 : Nat)] 2 3 = [5] ∧
    move_track [10, 20, 30] 0 2 = [10, 20, 30] :=
  ⟨move_track_correct.2.2.2 Nat 10 20 30 40,
   move_track_correct.1 Nat [5] 2 3 (by decide),
   move_track_correct.2.1 Nat [10, 20, 30] 0 2 (by decide) (by decide)
     (Or.inl (by decide))⟩

/-! ## C2: StartBot is a no-op on Starting or Online accounts -/

/-- C2: spawn_bot on an account whose status is already Starting or Online
leaves the whole shared store (and the worker set) unchanged: no status
write, no worker task, no command-channel handle. -/
theorem spawn_bot_noop_when_active :
    ∀ (s : MgrState) (u : String) (acc : AccountState),
      alookup s.accounts u = some acc →
      (acc.status = BotStatus.Online ∨ acc.status = BotStatus.Starting) →
      spawn_bot s u = s := by
  intro s u acc ha hs
  unfold spawn_bot
  rw [ha]
  exact if_pos hs

theorem spawn_bot_noop_when_active_witness :
    spawn_bot mgrDemoOnline "a" = mgrDemoOnline :=
  spawn_bot_noop_when_active mgrDemoOnline "a"
    { AccountState.new "a" "Alias" "tok" with
        status := BotStatus.Online, command_tx := some 7 }
    (by decide) (Or.inl rfl)

/-! ## C6: Volume command semantics -/

/-- C6: handling Volume sets the guild record's volume to the commanded value
immediately, as part of command handling (its own update_guild call), leaves
every other field of that guild and every other guild untouched, and applies
the commanded volume to every track the engine queue holds at command time
(current plus pending), preserving the tracks' identity. -/
theorem handle_volume_correct :
    ∀ (engine : Option EngineCall) (guilds : List (Nat × GuildState)) (gid : Nat)
      (v : Rat) (g : GuildState),
      alookup guilds gid = some g →
      alookup (handle_volume engine guilds gid v).2 gid = some { g with volume := v } ∧
      (∀ k, k ≠ gid → alookup (handle_volume engine guilds gid v).2 k = alookup guilds k) ∧
      ((handle_volume engine guilds gid v).1.map (fun call => call.queue.map EngineTrack.volume)
          = engine.map (fun call => call.queue.map (fun _ => v))) ∧
      ((handle_volume engine guilds gid v).1.map (fun call => call.queue.map EngineTrack.uuid)
          = engine.map (fun call => call.queue.map EngineTrack.uuid)) := by
  intro engine guilds gid v g hg
  refine ⟨?_, ?_, ?_, ?_⟩
  · show alookup (aupdate guilds gid _) gid = _
    rw [alookup_aupdate_self, hg]
    rfl
  · intro k hk
    exact alookup_aupdate_ne guilds gid k _ hk
  · cases engine with
    | none => rfl
    | some call =>
      show some ((call.queue.map fun t => { t with volume := v }).map EngineTrack.volume)
          = some (call.queue.map fun _ => v)
      rw [List.map_map]
      rfl
  · cases engine with
    | none => rfl
    | some call =>
      show some ((call.queue.map fun t => { t with volume := v }).map EngineTrack.uuid)
          = some (call.queue.map EngineTrack.uuid)
      rw [List.map_map]
      rfl

theorem handle_volume_correct_witness :
    alookup
      (handle_volume (some { queue := [{ uuid := 3, playing := PlayMode.Play,
                                         position := 0, volume := 1 }] })
        [(9, GuildState.new 9 "Guild")] 9 (7 / 2)).2 9
      = some { GuildState.new 9 "Guild" with volume := (7 / 2 : Rat) } :=
  (handle_volume_correct
    (some { queue := [{ uuid := 3, playing := PlayMode.Play, position := 0, volume := 1 }] })
    [(9, GuildState.new 9 "Guild")] 9 (7 / 2) (GuildState.new 9 "Guild") (by decide)).1

/-! ## C3: the roster merge preserves existing guild entries -/

theorem merge_guild_roster_preserves (roster : List (Nat × String)) :
    ∀ (guilds : List (Nat × GuildState)) (k : Nat), (alookup guilds k).isSome →
      alookup (merge_guild_roster guilds roster) k = alookup guilds k := by
  induction roster with
  | nil => intro guilds k _; rfl
  | cons r rest ih =>
    intro guilds k h
    show alookup
      (merge_guild_roster
        (if (alookup guilds r.1).isSome then guilds
         else guilds ++ [(r.1, GuildState.new r.1 r.2)]) rest) k = _
    by_cases hr : (alookup guilds r.1).isSome
    · rw [if_pos hr]
      exact ih guilds k h
    · rw [if_neg hr]
      have hstep : alookup (guilds ++ [(r.1, GuildState.new r.1 r.2)]) k = alookup guilds k := by
        rw [alookup_append]
        obtain ⟨v, hv⟩ := Option.isSome_iff_exists.mp h
        rw [hv]
        rfl
      rw [ih _ k (by rw [hstep]; exact h), hstep]

theorem merge_guild_roster_new (roster : List (Nat × String)) :
    ∀ (guilds : List (Nat × GuildState)) (k : Nat) (name : String),
      (k, name) ∈ roster → alookup guilds k = none →
      ∃ name', (k, name') ∈ roster ∧
        alookup (merge_guild_roster guilds roster) k = some (GuildState.new k name') := by
  induction roster with
  | nil => intro _ _ _ hmem; cases hmem
  | cons r rest ih =>
    intro guilds k name hmem hnone
    show ∃ name', _ ∧ alookup
      (merge_guild_roster
        (if (alookup guilds r.1).isSome then guilds
         else guilds ++ [(r.1, GuildState.new r.1 r.2)]) rest) k = _
    by_cases hk : r.1 = k
    · subst hk
      rw [if_neg (by rw [hnone]; exact Bool.false_ne_true)]
      have hfound : alookup (guilds ++ [(r.1, GuildState.new r.1 r.2)]) r.1
          = some (GuildState.new r.1 r.2) := by
        rw [alookup_append, hnone]
        simp [alookup]
      refine ⟨r.2, by simp, ?_⟩
      rw [merge_guild_roster_preserves rest _ r.1 (by rw [hfound]; rfl), hfound]
    · have hmem' : (k, name) ∈ rest := by
        cases hmem with
        | head => exact absurd rfl hk
        | tail _ h => exact h
      by_cases hr : (alookup guilds r.1).isSome
      · rw [if_pos hr]
        obtain ⟨name', h1, h2⟩ := ih guilds k name hmem' hnone
        exact ⟨name', List.mem_cons_of_mem _ h1, h2⟩
      · rw [if_neg hr]
        have hnone' : alookup (guilds ++ [(r.1, GuildState.new r.1 r.2)]) k = none := by
          rw [alookup_append, hnone]
          simp [alookup, hk]
        obtain ⟨name', h1, h2⟩ := ih _ k name hmem' hnone'
        exact ⟨name', List.mem_cons_of_mem _ h1, h2⟩

theorem merge_guild_roster_no_spurious (roster : List (Nat × String)) :
    ∀ (guilds : List (Nat × GuildState)) (k : Nat), alookup guilds k = none →
      (∀ name, (k, name) ∉ roster) →
      alookup (merge_guild_roster guilds roster) k = none := by
  induction roster with
  | nil => intro _ _ h _; exact h
  | cons r rest ih =>
    intro guilds k hnone hout
    show alookup
      (merge_guild_roster
        (if (alookup guilds r.1).isSome then guilds
         else guilds ++ [(r.1, GuildState.new r.1 r.2)]) rest) k = _
    have hk : r.1 ≠ k := by
      intro hk
      exact hout r.2 (by rw [← hk]; exact List.mem_cons_self _ _)
    by_cases hr : (alookup guilds r.1).isSome
    · rw [if_pos hr]
      exact ih guilds k hnone (fun name hn => hout name (List.mem_cons_of_mem _ hn))
    · rw [if_neg hr]
      have hnone' : alookup (guilds ++ [(r.1, GuildState.new r.1 r.2)]) k = none := by
        rw [alookup_append, hnone]
        simp [alookup, hk]
      exact ih _ k hnone' (fun name hn => hout name (List.mem_cons_of_mem _ hn))

/-- C3: on the Starting → Online transition the fetched roster is merged into
the existing guild map: entries already present keep exactly their old value
(playback state is not clobbered), roster guilds missing from the map are
inserted as fresh GuildState::new entries, no other key appears, and hence
the map is never replaced wholesale. -/
theorem merge_guild_roster_correct :
    ∀ (guilds : List (Nat × GuildState)) (roster : List (Nat × String)),
      (∀ k, (alookup guilds k).isSome →
        alookup (merge_guild_roster guilds roster) k = alookup guilds k) ∧
      (∀ k name, (k, name) ∈ roster → alookup guilds k = none →
        ∃ name', (k, name') ∈ roster ∧
          alookup (merge_guild_roster guilds roster) k = some (GuildState.new k name')) ∧
      (∀ k, alookup guilds k = none → (∀ name, (k, name) ∉ roster) →
        alookup (merge_guild_roster guilds roster) k = none) :=
  fun guilds roster =>
    ⟨fun k => merge_guild_roster_preserves roster guilds k,
     fun k name => merge_guild_roster_new roster guilds k name,
     fun k => merge_guild_roster_no_spurious roster guilds k⟩

theorem merge_guild_roster_correct_witness :
    alookup
      (merge_guild_roster [(1, { GuildState.new 1 "Old" with is_playing := true })]
        [(1, "Renamed"), (2, "Fresh")]) 1
      = some { GuildState.new 1 "Old" with is_playing := true } := by
  have h := (merge_guild_roster_correct
    [(1, { GuildState.new 1 "Old" with is_playing := true })]
    [(1, "Renamed"), (2, "Fresh")]).1 1 (by decide)
  rw [h]
  rfl

/-! ## C7: the system log is bounded at 1000 entries -/

theorem logPush_eq_drop (logs : List String) (t m : String) (h : logs.length ≤ 1000) :
    logPush logs t m = (logs ++ [logEntry t m]).drop (logs.length + 1 - 1000) := by
  simp only [logPush, List.length_append, List.length_singleton]
  by_cases h1 : 1000 < logs.length + 1
  · rw [if_pos h1]
    have h2 : logs.length + 1 - 1000 = 1 := by omega
    rw [h2]
  · rw [if_neg h1]
    have h2 : logs.length + 1 - 1000 = 0 := by omega
    rw [h2, List.drop_zero]

theorem logPush_length_le (logs : List String) (t m : String) (h : logs.length ≤ 1000) :
    (logPush logs t m).length ≤ 1000 := by
  rw [logPush_eq_drop logs t m h, List.length_drop, List.length_append,
    List.length_singleton]
  omega

theorem logRun_go (msgs : List (String × String)) :
    ∀ acc : List String, acc.length ≤ 1000 →
      List.foldl (fun a p => logPush a p.1 p.2) acc msgs
        = (acc ++ msgs.map fun p => logEntry p.1 p.2).drop (acc.length + msgs.length - 1000) := by
  induction msgs with
  | nil =>
    intro acc h
    have h0 : acc.length - 1000 = 0 := by omega
    simp [h0]
  | cons p rest ih =>
    intro acc h
    rw [List.foldl_cons, ih _ (logPush_length_le acc p.1 p.2 h), logPush_eq_drop _ _ _ h]
    rw [← List.drop_append_of_le_length
      (by rw [List.length_append, List.length_singleton]; omega)]
    rw [List.drop_drop]
    simp only [List.length_drop, List.length_append, List.length_singleton,
      List.length_cons, List.length_nil, List.map_cons, List.append_assoc,
      List.singleton_append]
    have harith : ∀ (x y : Nat), x = y →
        ∀ L : List String, L.drop x = L.drop y := by
      intro x y hxy L
      rw [hxy]
    exact harith _ _ (by omega) _

/-- C7: each AppState::log call appends exactly one timestamped entry and
drops the oldest entry exactly when the new length exceeds 1000; from the
empty log the length never exceeds 1000 after any number of calls, and after
2000 sequential calls exactly the most recent 1000 entries remain, in
arrival order. -/
theorem log_bounded_and_evicts :
    (∀ (logs : List String) (t m : String), logs.length ≤ 1000 →
      logPush logs t m = (logs ++ [logEntry t m]).drop (logs.length + 1 - 1000) ∧
      (logPush logs t m).length ≤ 1000) ∧
    (∀ msgs : List (String × String), (logRun msgs).length ≤ 1000) ∧
    (∀ msgs : List (String × String), msgs.length = 2000 →
      logRun msgs = (msgs.map fun p => logEntry p.1 p.2).drop 1000 ∧
      (logRun msgs).length = 1000) := by
  have hrun : ∀ msgs : List (String × String),
      logRun msgs = (msgs.map fun p => logEntry p.1 p.2).drop (msgs.length - 1000) := by
    intro msgs
    unfold logRun
    rw [logRun_go msgs [] (by simp)]
    simp
  refine ⟨fun logs t m h => ⟨logPush_eq_drop logs t m h, logPush_length_le logs t m h⟩, ?_, ?_⟩
  · intro msgs
    rw [hrun, List.length_drop, List.length_map]
    omega
  · intro msgs h
    have h1 : logRun msgs = (msgs.map fun p => logEntry p.1 p.2).drop 1000 := by
      rw [hrun, h]
    refine ⟨h1, ?_⟩
    rw [h1, List.length_drop, List.length_map, h]

theorem log_bounded_and_evicts_witness :
    (logPush [] "ts" "message").length ≤ 1000 ∧
    (logRun (List.replicate 2000 ("ts", "message"))).length = 1000 :=
  ⟨(log_bounded_and_evicts.1 [] "ts" "message" (by simp)).2,
   (log_bounded_and_evicts.2.2 (List.replicate 2000 ("ts", "message"))
     (by rw [List.length_replicate])).2⟩

/-! ## C4: sync_state prunes the track index to exactly the observed handles -/

theorem mem_observed_uuids (engine : Nat → Option EngineCall) (g : Nat)
    (acc : List Nat) (k : Nat) :
    k ∈ observed_uuids engine g acc ↔
      k ∈ acc ∨ ∃ call, engine g = some call ∧ k ∈ call.queue.map EngineTrack.uuid := by
  unfold observed_uuids
  cases he : engine g with
  | none => simp
  | some call =>
    cases hq : call.queue with
    | nil => simp [hq]
    | cons t rest =>
      simp [hq]
      tauto

theorem mem_active_uuids_go (engine : Nat → Option EngineCall) (known : List Nat) :
    ∀ (acc : List Nat) (k : Nat),
      k ∈ List.foldl (fun acc g => observed_uuids engine g acc) acc known ↔
        k ∈ acc ∨ ∃ gid ∈ known, ∃ call, engine gid = some call ∧
          k ∈ call.queue.map EngineTrack.uuid := by
  induction known with
  | nil => intro acc k; simp
  | cons g rest ih =>
    intro acc k
    rw [List.foldl_cons, ih, mem_observed_uuids]
    constructor
    · rintro ((hacc | ⟨call, hc, hm⟩) | ⟨gid, hgid, call, hc, hm⟩)
      · exact Or.inl hacc
      · exact Or.inr ⟨g, by simp, call, hc, hm⟩
      · exact Or.inr ⟨gid, List.mem_cons_of_mem _ hgid, call, hc, hm⟩
    · rintro (hacc | ⟨gid, hgid, call, hc, hm⟩)
      · exact Or.inl (Or.inl hacc)
      · cases List.mem_cons.mp hgid with
        | inl h1 => exact Or.inl (Or.inr ⟨call, h1 ▸ hc, hm⟩)
        | inr h1 => exact Or.inr ⟨gid, h1, call, hc, hm⟩

theorem mem_active_uuids (engine : Nat → Option EngineCall) (known : List Nat) (k : Nat) :
    k ∈ active_uuids known engine ↔
      ∃ gid ∈ known, ∃ call, engine gid = some call ∧
        k ∈ call.queue.map EngineTrack.uuid := by
  unfold active_uuids
  rw [mem_active_uuids_go]
  simp

/-- C4: a sync_state pass that reaches the pruning step retains exactly the
track_lookup entries whose engine handle was observed as current or queued
for some guild known to the account during the pass: every unobserved entry
is removed and every observed entry is kept. -/
theorem sync_prune_exact :
    ∀ (known : List Nat) (engine : Nat → Option EngineCall)
      (track_lookup : List (Nat × TrackMetadata)) (k : Nat) (meta : TrackMetadata),
      (k, meta) ∈ sync_prune true (some known) engine track_lookup ↔
        (k, meta) ∈ track_lookup ∧
          ∃ gid ∈ known, ∃ call, engine gid = some call ∧
            k ∈ call.queue.map EngineTrack.uuid := by
  intro known engine track_lookup k meta
  show (k, meta) ∈ track_lookup.filter (fun p => decide (p.1 ∈ active_uuids known engine)) ↔ _
  rw [List.mem_filter]
  simp only [decide_eq_true_eq]
  rw [mem_active_uuids]

/-! ## C8: is_playing and is_paused are never both true -/

theorem sync_guild_update_flags (g : GuildState) (call : EngineCall)
    (tl : List (Nat × TrackMetadata)) (infoOk : Bool) (channel : Option Nat) :
    ¬((sync_guild_update g call tl infoOk channel).is_playing = true ∧
      (sync_guild_update g call tl infoOk channel).is_paused = true) := by
  unfold sync_guild_update
  cases hq : call.queue.head? with
  | none => simp [hq]
  | some t =>
    cases infoOk with
    | false => simp [hq]
    | true =>
      simp only [hq]
      rintro ⟨hp, hs⟩
      simp at hp hs
      rw [hp] at hs
      exact absurd hs (by decide)

/-- C8: starting from GuildState::new (both flags false), every writer of the
playback flags found in the source (the reconciliation pass, which derives
them from one engine play mode; the observer's End branch, which only clears
is_playing; and the volume, leave and fetch-channels updates, which do not
touch them) preserves that is_playing and is_paused are never both true. -/
theorem guild_flags_mutually_exclusive :
    ∀ (id : Nat) (name : String) (g : GuildState),
      Relation.ReflTransGen GuildStep (GuildState.new id name) g →
      ¬(g.is_playing = true ∧ g.is_paused = true) := by
  intro id name g h
  induction h with
  | refl => simp [GuildState.new]
  | tail h1 hstep ih =>
    cases hstep with
    | sync call tl infoOk channel => exact sync_guild_update_flags _ call tl infoOk channel
    | observer_end => rintro ⟨hp, _⟩; simp at hp
    | set_volume v => exact ih
    | leave_clear => exact ih
    | fetch vc => exact ih

theorem guild_flags_mutually_exclusive_witness :
    ¬((GuildState.new 1 "Guild").is_playing = true ∧
      (GuildState.new 1 "Guild").is_paused = true) :=
  guild_flags_mutually_exclusive 1 "Guild" (GuildState.new 1 "Guild")
    Relation.ReflTransGen.refl

/-! ## C9: the observer error path bypasses the log helper -/

/-- C9: the track observer's playback-error path pushes its entry directly
onto system_logs instead of calling AppState::log: the appended line is
exactly errLogEntry (no timestamp is prepended) and no capacity truncation
runs, so an Errored invocation on a log already holding 1000 entries leaves
1001 entries. -/
theorem observer_error_bypasses_log :
    ∀ (app : AppState) (u : String) (gid : Nat) (e : String)
      (acc : AccountState) (g : GuildState),
      alookup app.accounts u = some acc →
      alookup acc.guilds gid = some g →
      app.system_logs.length = 1000 →
      (observer_act u gid [PlayMode.Errored e] app).system_logs
          = app.system_logs ++ [errLogEntry u gid e] ∧
      (observer_act u gid [PlayMode.Errored e] app).system_logs.length = 1001 := by
  intro app u gid e acc g ha hg hlen
  have hfold : observer_track_fold g [PlayMode.Errored e] = (g, [e]) := rfl
  unfold observer_act
  simp only [ha, hg]
  refine ⟨?_, ?_⟩
  · show app.system_logs
        ++ (observer_track_fold g [PlayMode.Errored e]).2.map (fun e => errLogEntry u gid e)
        = _
    rw [hfold]
    rfl
  · show (app.system_logs
        ++ (observer_track_fold g [PlayMode.Errored e]).2.map (fun e => errLogEntry u gid e)).length
        = 1001
    rw [hfold, List.length_append, hlen]
    rfl

theorem observer_error_bypasses_log_witness :
    (observer_act "a" 5 [PlayMode.Errored "decode failed"] appDemoFullLog).system_logs.length
      = 1001 :=
  (observer_error_bypasses_log appDemoFullLog "a" 5 "decode failed"
    { AccountState.new "a" "Alias" "tok" with guilds := [(5, GuildState.new 5 "Guild")] }
    (GuildState.new 5 "Guild") rfl rfl (by simp [appDemoFullLog])).2

/-! ## C10: the configuration round trip -/

theorem init_accounts_go (l : List SavedAccount) :
    ∀ (m : List (String × AccountState)),
      (∀ sa ∈ l, alookup m sa.uuid = none) →
      (l.map SavedAccount.uuid).Nodup →
      List.foldl (fun m saved => ainsert m saved.uuid (savedToAccount saved)) m l
        = m ++ l.map (fun sa => (sa.uuid, savedToAccount sa)) := by
  induction l with
  | nil => intro m _ _; simp
  | cons sa rest ih =>
    intro m hnone hnodup
    rw [List.foldl_cons]
    have h1 : alookup m sa.uuid = none := hnone sa (List.mem_cons_self _ _)
    have hins : ainsert m sa.uuid (savedToAccount sa)
        = m ++ [(sa.uuid, savedToAccount sa)] := by
      unfold ainsert
      rw [h1]
      rfl
    have hrest_none : ∀ sa' ∈ rest,
        alookup (m ++ [(sa.uuid, savedToAccount sa)]) sa'.uuid = none := by
      intro sa' hmem
      rw [alookup_append, hnone sa' (List.mem_cons_of_mem _ hmem)]
      have hne : sa.uuid ≠ sa'.uuid := by
        simp only [List.map_cons, List.nodup_cons] at hnodup
        intro heq
        exact hnodup.1 (heq ▸ List.mem_map_of_mem SavedAccount.uuid hmem)
      simp [alookup, hne]
    have hrest_nodup : (rest.map SavedAccount.uuid).Nodup := by
      simp only [List.map_cons, List.nodup_cons] at hnodup
      exact hnodup.2
    rw [hins, ih _ hrest_none hrest_nodup, List.append_assoc]
    rfl

/-- C10: for configurations with pairwise-distinct account uuids, saving the
freshly initialised runtime state yields the same saved accounts (same uuid,
alias, token and auto_start), ordered by alias, with the same
last_selected_account; the runtime-only fields init_state adds do not leak
into the result. -/
theorem config_round_trip :
    ∀ config : AppConfig,
      (config.accounts.map SavedAccount.uuid).Nodup →
      List.Perm (update_from_state (init_state config)).accounts config.accounts ∧
      List.Sorted aliasLe (update_from_state (init_state config)).accounts ∧
      (update_from_state (init_state config)).last_selected_account
        = config.last_selected_account := by
  intro config hnodup
  have hacc : (init_state config).accounts
      = config.accounts.map (fun sa => (sa.uuid, savedToAccount sa)) := by
    show List.foldl (fun m saved => ainsert m saved.uuid (savedToAccount saved)) [] config.accounts = _
    rw [init_accounts_go config.accounts [] (fun sa _ => rfl) hnodup]
    rfl
  have hmap : (init_state config).accounts.map (fun p => accountToSaved p.2)
      = config.accounts := by
    rw [hacc, List.map_map]
    have hfun : ((fun p : String × AccountState => accountToSaved p.2) ∘
        fun sa => (sa.uuid, savedToAccount sa)) = id := by
      funext sa
      rfl
    rw [hfun, List.map_id]
  refine ⟨?_, ?_, rfl⟩
  · show List.Perm
      (((init_state config).accounts.map (fun p => accountToSaved p.2)).insertionSort aliasLe)
      config.accounts
    rw [hmap]
    exact List.perm_insertionSort aliasLe config.accounts
  · show List.Sorted aliasLe
      (((init_state config).accounts.map (fun p => accountToSaved p.2)).insertionSort aliasLe)
    exact List.sorted_insertionSort aliasLe _

theorem config_round_trip_witness :
    List.Perm (update_from_state (init_state demoConfig)).accounts demoConfig.accounts ∧
    List.Sorted aliasLe (update_from_state (init_state demoConfig)).accounts ∧
    (update_from_state (init_state demoConfig)).last_selected_account
      = demoConfig.last_selected_account :=
  config_round_trip demoConfig (by decide)

/-! ## C1: command-channel handle vs. worker liveness -/

theorem set_worker_phase_map_gen (ws : List Worker) (u : String) (g : Nat)
    (p : WorkerPhase) :
    (set_worker_phase ws u g p).map Worker.gen = ws.map Worker.gen := by
  unfold set_worker_phase
  rw [List.map_map]
  have hfun : (Worker.gen ∘ fun w =>
      if w.uuid = u ∧ w.gen = g then { w with phase := p } else w) = Worker.gen := by
    funext w
    by_cases h : w.uuid = u ∧ w.gen = g <;> simp [Function.comp, h]
  rw [hfun]

theorem step_preserves_gensOk {s s' : MgrState} (h : ManagerStep s s')
    (hok : WorkerGensOk s) : WorkerGensOk s' := by
  obtain ⟨hbound, hnodup⟩ := hok
  cases h with
  | start_bot u =>
    unfold spawn_bot
    split
    · exact ⟨hbound, hnodup⟩
    · split
      · exact ⟨hbound, hnodup⟩
      · refine ⟨?_, ?_⟩
        · intro w hw
          simp only [List.mem_append, List.mem_singleton] at hw
          cases hw with
          | inl h1 =>
            have := hbound w h1
            show w.gen < s.nextGen + 1
            omega
          | inr h1 =>
            subst h1
            show s.nextGen < s.nextGen + 1
            omega
        · show ((s.workers ++ [_]).map Worker.gen).Nodup
          rw [List.map_append]
          rw [List.nodup_append]
          refine ⟨hnodup, by simp, ?_⟩
          intro x hx hmem
          obtain ⟨w', hw', he⟩ := List.mem_map.mp hx
          simp only [List.map_cons, List.map_nil, List.mem_singleton] at hmem
          have := hbound w' hw'
          omega
  | stop_bot u => exact ⟨hbound, hnodup⟩
  | connect_ok u g appId roster hw =>
    refine ⟨?_, ?_⟩
    · intro w hwmem
      have hmem : w.gen ∈ (set_worker_phase s.workers u g WorkerPhase.looping).map Worker.gen :=
        List.mem_map_of_mem _ hwmem
      rw [set_worker_phase_map_gen] at hmem
      obtain ⟨w', hw', he⟩ := List.mem_map.mp hmem
      exact he ▸ hbound w' hw'
    · show ((set_worker_phase s.workers u g WorkerPhase.looping).map Worker.gen).Nodup
      rw [set_worker_phase_map_gen]
      exact hnodup
  | connect_fail u g msg hw =>
    refine ⟨?_, ?_⟩
    · intro w hwmem
      have hmem : w.gen ∈ (set_worker_phase s.workers u g WorkerPhase.dead).map Worker.gen :=
        List.mem_map_of_mem _ hwmem
      rw [set_worker_phase_map_gen] at hmem
      obtain ⟨w', hw', he⟩ := List.mem_map.mp hmem
      exact he ▸ hbound w' hw'
    · show ((set_worker_phase s.workers u g WorkerPhase.dead).map Worker.gen).Nodup
      rw [set_worker_phase_map_gen]
      exact hnodup
  | loop_exit u g hw hch =>
    refine ⟨?_, ?_⟩
    · intro w hwmem
      have hmem : w.gen ∈ (set_worker_phase s.workers u g WorkerPhase.dead).map Worker.gen :=
        List.mem_map_of_mem _ hwmem
      rw [set_worker_phase_map_gen] at hmem
      obtain ⟨w', hw', he⟩ := List.mem_map.mp hmem
      exact he ▸ hbound w' hw'
    · show ((set_worker_phase s.workers u g WorkerPhase.dead).map Worker.gen).Nodup
      rw [set_worker_phase_map_gen]
      exact hnodup

theorem reachable_gensOk {s₀ s : MgrState} (h0 : MgrInit s₀) (h : MgrReachable s₀ s) :
    WorkerGensOk s := by
  induction h with
  | refl =>
    refine ⟨?_, ?_⟩
    · intro w hw
      rw [h0.1] at hw
      cases hw
    · rw [h0.1]
      simp
  | tail h1 hstep ih => exact step_preserves_gensOk hstep ih

theorem nodup_gen_filter_le_one (ws : List Worker) :
    (ws.map Worker.gen).Nodup → ∀ g : Nat,
      (ws.filter (fun w => decide (w.gen = g ∧ w.phase ≠ WorkerPhase.dead))).length ≤ 1 := by
  induction ws with
  | nil => intro _ g; simp
  | cons w rest ih =>
    intro hnodup g
    simp only [List.map_cons, List.nodup_cons] at hnodup
    rw [List.filter_cons]
    by_cases hw : w.gen = g ∧ w.phase ≠ WorkerPhase.dead
    · rw [if_pos (by simp [hw])]
      have hrest : rest.filter
          (fun w => decide (w.gen = g ∧ w.phase ≠ WorkerPhase.dead)) = [] := by
        rw [List.filter_eq_nil_iff]
        intro w' hw'
        simp only [decide_eq_true_eq]
        rintro ⟨hgen, _⟩
        have hm : w'.gen ∈ rest.map Worker.gen := List.mem_map_of_mem Worker.gen hw'
        rw [hgen, ← hw.1] at hm
        exact hnodup.1 hm
      rw [hrest]
      simp
    · rw [if_neg (by simp [hw])]
      exact ih hnodup.2 g

theorem spawn_bot_installs_tx (s : MgrState) (u : String) (acc : AccountState)
    (ha : alookup s.accounts u = some acc)
    (h1 : acc.status ≠ BotStatus.Online) (h2 : acc.status ≠ BotStatus.Starting) :
    alookup (spawn_bot s u).accounts u
      = some { acc with status := BotStatus.Starting, command_tx := some s.nextGen } := by
  unfold spawn_bot
  simp only [ha]
  rw [if_neg (fun hor => hor.elim h1 h2)]
  show alookup (aupdate (aupdate s.accounts u _) u _) u = _
  rw [alookup_aupdate_self, alookup_aupdate_self, ha]
  rfl

theorem kill_bot_clears_tx (s : MgrState) (u : String) (acc : AccountState)
    (ha : alookup s.accounts u = some acc) :
    alookup (kill_bot s u).accounts u
      = some { acc with status := BotStatus.Offline, command_tx := none } := by
  show alookup (aupdate s.accounts u _) u = _
  rw [alookup_aupdate_self, ha]
  rfl

theorem worker_connect_fail_keeps_tx (s : MgrState) (u : String) (g : Nat) (msg : String) :
    (alookup (worker_connect_fail s u g msg).accounts u).map AccountState.command_tx
      = (alookup s.accounts u).map AccountState.command_tx := by
  show (alookup (aupdate s.accounts u _) u).map _ = _
  rw [alookup_aupdate_self]
  cases alookup s.accounts u <;> rfl

/-- C1 (amended): the command-channel handle is installed exactly by the
spawning StartBot (together with a fresh channel) and cleared by StopBot,
and in every reachable state each installed channel generation is held by at
most one live worker task; but neither equivalence claimed originally holds:
a worker that fails to connect ends without clearing the handle
(worker_connect_fail leaves command_tx untouched), so the handle can remain
present with no live worker, and a StopBot issued while a worker is still
connecting followed by a StartBot leaves two live workers for one account,
so per-account at-most-one-live-worker fails (both shown in the
counterexample). -/
theorem command_tx_lifecycle :
    ∀ s₀ s : MgrState, MgrInit s₀ → MgrReachable s₀ s →
      (∀ g : Nat, (s.workers.filter
          (fun w => decide (w.gen = g ∧ w.phase ≠ WorkerPhase.dead))).length ≤ 1) ∧
      (∀ (u : String) (acc : AccountState), alookup s.accounts u = some acc →
        acc.status ≠ BotStatus.Online → acc.status ≠ BotStatus.Starting →
        alookup (spawn_bot s u).accounts u
          = some { acc with status := BotStatus.Starting, command_tx := some s.nextGen }) ∧
      (∀ (u : String) (acc : AccountState), alookup s.accounts u = some acc →
        alookup (kill_bot s u).accounts u
          = some { acc with status := BotStatus.Offline, command_tx := none }) ∧
      (∀ (u : String) (g : Nat) (msg : String),
        (alookup (worker_connect_fail s u g msg).accounts u).map AccountState.command_tx
          = (alookup s.accounts u).map AccountState.command_tx) := by
  intro s₀ s h0 hreach
  refine ⟨?_, ?_, ?_, ?_⟩
  · exact nodup_gen_filter_le_one s.workers (reachable_gensOk h0 hreach).2
  · intro u acc ha h1 h2
    exact spawn_bot_installs_tx s u acc ha h1 h2
  · intro u acc ha
    exact kill_bot_clears_tx s u acc ha
  · intro u g msg
    exact worker_connect_fail_keeps_tx s u g msg

theorem command_tx_lifecycle_witness :
    (mgrDemoInit.workers.filter
      (fun w => decide (w.gen = 0 ∧ w.phase ≠ WorkerPhase.dead))).length ≤ 1 ∧
    (alookup (worker_connect_fail mgrDemoInit "a" 0 "boom").accounts "a").map
        AccountState.command_tx
      = (alookup mgrDemoInit.accounts "a").map AccountState.command_tx := by
  have hinit : MgrInit mgrDemoInit := by
    refine ⟨rfl, ?_⟩
    intro u a ha
    simp only [mgrDemoInit, alookup] at ha
    split at ha
    · cases ha
      rfl
    · cases ha
  have h := command_tx_lifecycle mgrDemoInit mgrDemoInit hinit Relation.ReflTransGen.refl
  exact ⟨h.1 0, h.2.2.2 "a" 0 "boom"⟩

/-- C1 counterexample, both failing parts of the claim exhibited from an
initial state with one offline account.  First, StartBot followed by the
worker's connect failure reaches a state where the account's command-channel
handle is still present although every worker task has ended, so the handle
is not absent whenever no live worker exists.  Second, StartBot, then
StopBot while that worker is still connecting, then StartBot on the now
Offline account reaches a state with two simultaneously live worker tasks
for the same account, so at most one live worker per account does not hold
in every reachable state. -/
theorem command_tx_liveness_counterexample :
    (∃ s : MgrState, MgrReachable mgrDemoInit s ∧
      (∃ acc, alookup s.accounts "a" = some acc ∧ acc.command_tx = some 0) ∧
      ∀ w ∈ s.workers, w.phase = WorkerPhase.dead) ∧
    (∃ s : MgrState, MgrReachable mgrDemoInit s ∧
      ∃ w1 w2 : Worker, w1 ∈ s.workers ∧ w2 ∈ s.workers ∧ w1 ≠ w2 ∧
        w1.uuid = "a" ∧ w2.uuid = "a" ∧
        w1.phase ≠ WorkerPhase.dead ∧ w2.phase ≠ WorkerPhase.dead) := by
  constructor
  · refine ⟨worker_connect_fail (spawn_bot mgrDemoInit "a") "a" 0 "connect refused",
      ?_, ?_, ?_⟩
    · exact Relation.ReflTransGen.tail
        (Relation.ReflTransGen.single (ManagerStep.start_bot mgrDemoInit "a"))
        (ManagerStep.connect_fail (spawn_bot mgrDemoInit "a") "a" 0 "connect refused"
          (by decide))
    · exact ⟨{ AccountState.new "a" "Alias" "tok" with
                status := BotStatus.Error "connect refused", command_tx := some 0 },
        by decide, rfl⟩
    · decide
  · refine ⟨spawn_bot (kill_bot (spawn_bot mgrDemoInit "a") "a") "a", ?_,
      { uuid := "a", gen := 0, phase := WorkerPhase.connecting },
      { uuid := "a", gen := 1, phase := WorkerPhase.connecting },
      by decide, by decide, by decide, rfl, rfl, by decide, by decide⟩
    exact Relation.ReflTransGen.tail
      (Relation.ReflTransGen.tail
        (Relation.ReflTransGen.single (ManagerStep.start_bot mgrDemoInit "a"))
        (ManagerStep.stop_bot (spawn_bot mgrDemoInit "a") "a"))
      (ManagerStep.start_bot (kill_bot (spawn_bot mgrDemoInit "a") "a") "a")
